import Mathlib

/-!
Verification of the `reposync` plugin (`src/plugins/reposync.py`) against its
natural-language specification.

The development shallowly embeds the plugin code: Python strings are Lean
`String`s, the POSIX path functions (`os.path.normpath`, `os.path.join`,
`os.path.basename`, `os.path.dirname`, `str.startswith`, `str.endswith`,
`str.lstrip`) are translated from the CPython `posixpath` module, and the
filesystem plus the external dnf collaborators (package index query, remote
transfer layer, metadata materialization, decompression) are modelled as an
explicit state threaded through the command methods.  Exceptions are
modelled as `Option String` error components; Python side effects performed
before a raise persist, so each stage returns the (possibly mutated) state
together with the optional error.
-/

namespace RepoSync

/-- Python `s.startswith(pre)`: `pre` is a string prefix of `s`. -/
def pyStartsWith (s pre : String) : Bool :=
  pre.data.isPrefixOf s.data

/-- Python `s.endswith(suf)`: `suf` is a string suffix of `s`. -/
def pyEndsWith (s suf : String) : Bool :=
  suf.data.isSuffixOf s.data

/-- Python `s.lstrip("/")`: remove every leading `'/'`. -/
def pyLstripSlash (s : String) : String :=
  String.mk (s.data.dropWhile (fun c => c == '/'))

/-- Python `s.split('/')` on the character list (CPython `str.split` with a
one-character separator keeps empty fields). -/
def splitSlash : List Char → List (List Char)
  | [] => [[]]
  | c :: cs =>
    let r := splitSlash cs
    if c = '/' then [] :: r
    else
      match r with
      | [] => [[c]]
      | h :: t => (c :: h) :: t

/-- `'/'.join(...)` on character lists. -/
def joinSlash : List (List Char) → List Char
  | [] => []
  | [x] => x
  | x :: xs => x ++ '/' :: joinSlash xs

/-- CPython `posixpath.basename`: the part after the last `'/'`. -/
def pyBasename (p : String) : String :=
  String.mk ((p.data.reverse.takeWhile (fun c => c != '/')).reverse)

/-- CPython `posixpath.dirname`: the part up to the last `'/'`, with trailing
slashes stripped unless the result consists only of slashes. -/
def pyDirname (p : String) : String :=
  let head := (p.data.reverse.dropWhile (fun c => c != '/')).reverse
  if head = [] ∨ head.all (fun c => c == '/') = true then String.mk head
  else String.mk ((head.reverse.dropWhile (fun c => c == '/')).reverse)

/-- The component-normalization loop of CPython `posixpath.normpath`:
drop `''` and `'.'` components, resolve `'..'` against a previous component
where the Python code does. -/
def normAux (initialSlashes : Nat) (acc : List (List Char)) :
    List (List Char) → List (List Char)
  | [] => acc
  | comp :: rest =>
    if comp = [] ∨ comp = ['.'] then normAux initialSlashes acc rest
    else if comp ≠ ['.', '.'] ∨ (initialSlashes = 0 ∧ acc = []) ∨
        (acc ≠ [] ∧ acc.getLast? = some ['.', '.']) then
      normAux initialSlashes (acc ++ [comp]) rest
    else if acc ≠ [] then normAux initialSlashes acc.dropLast rest
    else normAux initialSlashes acc rest

/-- The final `return path or dot` of CPython `posixpath.normpath`. -/
def orDot (l : List Char) : String :=
  if l = [] then "." else String.mk l

/-- CPython `posixpath.normpath`. -/
def pyNormpath (path : String) : String :=
  if path = "" then "."
  else
    let initialSlashes : Nat :=
      if pyStartsWith path "/" = true then
        if pyStartsWith path "//" = true ∧ pyStartsWith path "///" = false then 2
        else 1
      else 0
    let comps := splitSlash path.data
    let newComps := normAux initialSlashes [] comps
    orDot (List.replicate initialSlashes '/' ++ joinSlash newComps)

/-- CPython `posixpath.join` for two arguments. -/
def pyJoin (a b : String) : String :=
  if pyStartsWith b "/" = true then b
  else if a = "" ∨ pyEndsWith a "/" = true then a ++ b
  else a ++ "/" ++ b

/-- `_pkgdir(intermediate, target)` from `reposync.py`:
`os.path.normpath(os.path.join(cwd, intermediate, target))`. -/
def pkgdirPath (cwd intermediate target : String) : String :=
  pyNormpath (pyJoin (pyJoin cwd intermediate) target)

/-! ### Data model -/

/-- A repository record.  `comps` is the decompressed group descriptor the
external `decompress` would produce for `repo.metadata._comps_fn` (`none`
models a falsy `_comps_fn`).  `compsFails` / `metadataFails` model the
external decompression / `downloadMetadata` call raising.  `metadataFiles`
are the raw metadata files the external index service would materialize. -/
structure Repo where
  id : String
  pkgdir : String
  comps : Option String
  compsFails : Bool
  metadataFails : Bool
  metadataFiles : List (String × String)
  enabled : Bool
  deltarpm : Bool
  expired : Bool
deriving DecidableEq, Repr

/-- A package of the remote index.  `isLocal` is the provenance flag with
which the external `base._select_remote_pkgs` classifies the package as
already byte-available locally; `content` is its payload bytes. -/
structure Pkg where
  repoId : String
  location : String
  name : String
  evr : Nat
  arch : String
  isLocal : Bool
  content : String
deriving DecidableEq, Repr

/-- The parsed CLI options of the command (`set_argparser` plus the standard
`destdir` option consulted by `repo_target`). -/
structure Opts where
  arches : List String
  delete : Bool
  downloadcomps : Bool
  download_metadata : Bool
  newest_only : Bool
  download_path : String
  source : Bool
  destdir : Option String
  repoIds : List String
deriving DecidableEq, Repr

/-- The run context: current working directory, options, the repository
configuration and the available-package index (the sack). -/
structure Ctx where
  cwd : String
  opts : Opts
  repos : List Repo
  sack : List Pkg
deriving DecidableEq, Repr

/-- A directory entry: a regular file with contents, or a directory. -/
inductive Entry where
  | file (content : String)
  | dir
deriving DecidableEq, Repr

/-- The local filesystem: an association of absolute paths to entries. -/
structure FS where
  entries : List (String × Entry)
deriving DecidableEq, Repr

/-- Trace events recording which sync stages ran for which repository. -/
inductive Event where
  | metadataSynced (id : String)
  | compsSynced (id : String)
  | pkgSynced (id : String)
deriving DecidableEq, Repr

/-- The mutable state of a run: the filesystem, the list of destinations
fetched over the network, the list of local-copy destinations, the deleted
paths, and the stage trace. -/
structure St where
  fs : FS
  downloads : List String
  copies : List String
  deleted : List String
  trace : List Event
deriving DecidableEq, Repr

def FS.lookup (fs : FS) (p : String) : Option Entry :=
  List.lookup p fs.entries

/-- `os.path.isfile`. -/
def FS.isfile (fs : FS) (p : String) : Bool :=
  match fs.lookup p with
  | some (Entry.file _) => true
  | _ => false

/-- `os.path.exists`. -/
def FS.pathExists (fs : FS) (p : String) : Bool :=
  (fs.lookup p).isSome

/-- Write (create or overwrite) a regular file. -/
def FS.write (fs : FS) (p content : String) : FS :=
  ⟨(p, Entry.file content) :: fs.entries.filter (fun e => e.1 != p)⟩

/-- `dnf.util.ensure_dir`: create the directory if nothing is at the path. -/
def FS.ensureDir (fs : FS) (p : String) : FS :=
  if (fs.lookup p).isSome then fs else ⟨(p, Entry.dir) :: fs.entries⟩

/-- `os.unlink`: removes a regular file; on a directory (or a missing path)
it raises `OSError`, modelled as `none`. -/
def FS.unlink (fs : FS) (p : String) : Option FS :=
  if fs.isfile p then some ⟨fs.entries.filter (fun e => e.1 != p)⟩ else none

/-- The name under which `p` is an immediate child of directory `d`
(no `'/'` in the remainder), if it is one. -/
def childName (d p : String) : Option String :=
  let pre := (d ++ "/").data
  if pre.isPrefixOf p.data = true then
    let rest := p.data.drop pre.length
    if rest ≠ [] ∧ rest.all (fun c => c != '/') = true then some (String.mk rest)
    else none
  else none

/-- `os.listdir`: the names of the immediate children of `d`. -/
def FS.listdir (fs : FS) (d : String) : List String :=
  fs.entries.filterMap (fun e => childName d e.1)

/-! ### Path computations of the command -/

/-- `self.opts.destdir or self.opts.download_path` (Python truthiness). -/
def intermediateDir (opts : Opts) : String :=
  match opts.destdir with
  | some s => if s = "" then opts.download_path else s
  | none => opts.download_path

/-- `RepoSyncCommand.repo_target`: the memoized `_pkgdir(...)` value, a pure
function of the context and the repository id. -/
def repo_target (ctx : Ctx) (repoId : String) : String :=
  pkgdirPath ctx.cwd (intermediateDir ctx.opts) repoId

/-- `RepoSyncCommand.pkg_download_path`: normalize the join of the
repository target and the package location, and raise unless the result
`startswith` the target (string prefix, as in the Python source).  The
quote characters of the original message format are omitted here. -/
def pkg_download_path (ctx : Ctx) (pkg : Pkg) : Except String String :=
  let target := repo_target ctx pkg.repoId
  let p := pyNormpath (pyJoin target pkg.location)
  if pyStartsWith p target = true then Except.ok p
  else Except.error
    ("Download target " ++ p ++ " is outside of download path " ++ target ++ ".")

/-- Modelled from the spec: "strict path prefix" — the target directory,
followed by a path separator, is a string prefix of the destination (so the
destination lies strictly inside the target directory).  Used to compare the
sandboxing invariant of the spec with the `startswith` check of the code. -/
def strictPathPrefix (target p : String) : Bool :=
  pyStartsWith p (target ++ "/")

/-! ### The package-set resolver -/

/-- Modelled from the spec: the external `Query.latest()` of the package
index (spec §6 `latestPerNameArch`, §4.2 "most recent version/release per
name+architecture"): keep a package iff no package of the same name and
architecture in the query has a strictly greater `evr`. -/
def latestPerNameArch (pkgs : List Pkg) : List Pkg :=
  pkgs.filter (fun p =>
    pkgs.all (fun q => !(q.name == p.name && q.arch == p.arch && p.evr < q.evr)))

/-- `RepoSyncCommand.get_pkglist`: restrict the sack to the repository, then
optionally the newest-only reduction, then the source restriction, else the
architecture allow-list. -/
def get_pkglist (ctx : Ctx) (repo : Repo) : List Pkg :=
  let query := ctx.sack.filter (fun p => p.repoId == repo.id)
  let query := if ctx.opts.newest_only then latestPerNameArch query else query
  if ctx.opts.source then query.filter (fun p => p.arch == "src")
  else if ctx.opts.arches ≠ [] then
    query.filter (fun p => ctx.opts.arches.contains p.arch)
  else query

/-! ### The deletion pass -/

/-- The body of the inner loop of `delete_old_local_packages`: for one
directory entry name, delete the file if it ends in `.rpm`, is a regular
file, and its `(repo id, filename)` key is absent from the download map
(a failing `os.unlink` is logged and skipped). -/
def deleteStep (dmap : List (String × String)) (repoId target : String)
    (st : St) (filename : String) : St :=
  let path := pyJoin target filename
  if pyEndsWith filename ".rpm" = true ∧ st.fs.isfile path = true then
    if (repoId, filename) ∈ dmap then st
    else
      match st.fs.unlink path with
      | some fs => { st with fs := fs, deleted := st.deleted ++ [path] }
      | none => st
  else st

/-- The body of the outer loop of `delete_old_local_packages`: for one
enabled repository, snapshot `os.listdir(repo_target)` (when the target
exists) and run the inner loop over it. -/
def deleteRepoPass (dmap : List (String × String)) (ctx : Ctx)
    (st : St) (repo : Repo) : St :=
  let target := repo_target ctx repo.id
  if st.fs.pathExists target then
    (st.fs.listdir target).foldl (deleteStep dmap repo.id target) st
  else st

/-- `RepoSyncCommand.delete_old_local_packages`: build the download map from
the candidate packages, then scan the target directory of every enabled
repository. -/
def delete_old_local_packages (ctx : Ctx) (packages : List Pkg) (st : St) : St :=
  let dmap := packages.map (fun p => (p.repoId, pyBasename p.location))
  (ctx.repos.filter (fun r => r.enabled)).foldl (deleteRepoPass dmap ctx) st

/-! ### The per-repository stages -/

/-- `RepoSyncCommand.getcomps`: if the repository publishes a comps
descriptor, decompress it to `repo_target/comps.xml` (the external
`decompress` may raise, modelled by `compsFails`). -/
def getcomps (ctx : Ctx) (repo : Repo) (st : St) : St × Option String :=
  match repo.comps with
  | none => (st, none)
  | some content =>
    if repo.compsFails then (st, some ("decompress failed for " ++ repo.id))
    else
      let dest := pyJoin (repo_target ctx repo.id) "comps.xml"
      ({ st with fs := st.fs.write dest content,
                 trace := st.trace ++ [Event.compsSynced repo.id] }, none)

/-- `RepoSyncCommand.download_metadata`.  Modelled from the spec: the
external `repo._repo.downloadMetadata(repo_target)` materializes the raw
metadata files under the target directory, or raises (`metadataFails`). -/
def download_metadata (ctx : Ctx) (repo : Repo) (st : St) : St × Option String :=
  if repo.metadataFails then
    (st, some ("metadata download failed for " ++ repo.id))
  else
    let target := repo_target ctx repo.id
    let fs := st.fs.ensureDir target
    let fs := repo.metadataFiles.foldl
      (fun fs nc => fs.write (pyJoin target nc.1) nc.2) fs
    ({ st with fs := fs, trace := st.trace ++ [Event.metadataSynced repo.id] }, none)

/-- Compute `pkg_download_path` for every remote package, as the payload
list comprehension does; the first raise aborts before any download. -/
def computePaths (ctx : Ctx) (pkgs : List Pkg) :
    Except String (List (Pkg × String)) :=
  pkgs.mapM (fun p => (pkg_download_path ctx p).map (fun d => (p, d)))

/-- Modelled from the spec: the external batched transfer layer
(`base._download_remote_payloads` with `RPMPayloadLocation` payloads).  For
each payload it ensures that the parent directory of the package exists and
materializes the package bytes at `dest = join(package_dir,
basename(location))`; a file already fully present with the right bytes is
skipped (librepo checksum skip) and not counted as a download. -/
def downloadRemote (st : St) (items : List (Pkg × String)) : St :=
  items.foldl (fun st pd =>
    let pdir := pyDirname pd.2
    let fs := st.fs.ensureDir pdir
    let dest := pyJoin pdir (pyBasename pd.1.location)
    if fs.lookup dest = some (Entry.file pd.1.content) then { st with fs := fs }
    else { st with fs := fs.write dest pd.1.content,
                   downloads := st.downloads ++ [dest] }) st

/-- The body of the local-copy loop of `download_packages` for one package:
`pkg_path = join(pkg.repo.pkgdir, location.lstrip('/'))`, the target
directory is the dirname of `pkg_download_path(pkg)` (which may raise),
`ensure_dir` it, then `shutil.copy(pkg_path, target_dir)` (raising if the
source is unreadable). -/
def copyLocal (ctx : Ctx) (repo : Repo) (st : St) (p : Pkg) : St × Option String :=
  let pkg_path := pyJoin repo.pkgdir (pyLstripSlash p.location)
  match pkg_download_path ctx p with
  | Except.error e => (st, some e)
  | Except.ok dpath =>
    let tdir := pyDirname dpath
    let fs := st.fs.ensureDir tdir
    match fs.lookup pkg_path with
    | some (Entry.file c) =>
      let dest := pyJoin tdir (pyBasename pkg_path)
      ({ st with fs := fs.write dest c, copies := st.copies ++ [dest] }, none)
    | _ => ({ st with fs := fs }, some ("failed to copy " ++ pkg_path))

/-- The local-copy loop: process packages in order, stopping at the first
raise (whose prior side effects persist). -/
def copyLocals (ctx : Ctx) (repo : Repo) (st : St) (ps : List Pkg) :
    St × Option String :=
  ps.foldl (fun acc p =>
    match acc with
    | (st, some e) => (st, some e)
    | (st, none) => copyLocal ctx repo st p) (st, none)

/-- `RepoSyncCommand.download_packages`: resolve the candidate set,
partition it into remote and locally-available packages, run the remote
batch and the local copies, then (if `--delete`) the deletion pass. -/
def download_packages (ctx : Ctx) (repo : Repo) (st : St) : St × Option String :=
  let st := { st with trace := st.trace ++ [Event.pkgSynced repo.id] }
  let pkglist := get_pkglist ctx repo
  let remote := pkglist.filter (fun p => !p.isLocal)
  let localPkgs := pkglist.filter (fun p => p.isLocal)
  match computePaths ctx remote with
  | Except.error e => (st, some e)
  | Except.ok items =>
    let st := downloadRemote st items
    match copyLocals ctx repo st localPkgs with
    | (st, some e) => (st, some e)
    | (st, none) =>
      if ctx.opts.delete then (delete_old_local_packages ctx pkglist st, none)
      else (st, none)

/-- Sequence two fallible stages, propagating the first raise. -/
def andThen (r : St × Option String) (f : St → St × Option String) :
    St × Option String :=
  match r with
  | (st, some e) => (st, some e)
  | (st, none) => f st

/-- The per-repository body of `RepoSyncCommand.run`: optional metadata
stage, optional comps stage, then the package sync; any raise propagates. -/
def runRepo (ctx : Ctx) (repo : Repo) (st : St) : St × Option String :=
  andThen
    (andThen
      (if ctx.opts.download_metadata then download_metadata ctx repo st
       else (st, none))
      (fun st =>
        if ctx.opts.downloadcomps then getcomps ctx repo st else (st, none)))
    (download_packages ctx repo)

/-- `RepoSyncCommand.run`: iterate the enabled repositories in order; an
uncaught exception aborts the remaining repositories. -/
def run (ctx : Ctx) (st : St) : St × Option String :=
  (ctx.repos.filter (fun r => r.enabled)).foldl
    (fun acc repo => andThen acc (runRepo ctx repo)) (st, none)

/-! ### `configure` -/

/-- `repos.all().disable()`. -/
def disableAll (repos : List Repo) : List Repo :=
  repos.map (fun r => { r with enabled := false })

/-- The `--repo` loop of `configure`: enable each named repository, raising
`CliError` on an unknown id. -/
def enableListed (repoIds : List String) (repos : List Repo) :
    Except String (List Repo) :=
  repoIds.foldlM (fun rs rid =>
    if rs.any (fun r => r.id == rid) then
      Except.ok (rs.map (fun r => if r.id == rid then { r with enabled := true } else r))
    else Except.error ("Unknown repo: " ++ rid ++ ".")) repos

/-- The final loop of `configure`: for every enabled repository,
`repo._repo.expire()` and `repo.deltarpm = False`. -/
def finalizeRepos (repos : List Repo) : List Repo :=
  repos.map (fun r =>
    if r.enabled then { r with expired := true, deltarpm := false } else r)

/-- `RepoSyncCommand.configure`.  `esr` models the external
`repos.enable_source_repos()` (it rewrites the repository list when
`--source` is given). -/
def configure (opts : Opts) (esr : List Repo → List Repo) (repos : List Repo) :
    Except String (List Repo) :=
  match (if opts.repoIds = [] then Except.ok repos
         else enableListed opts.repoIds (disableAll repos)) with
  | Except.error e => Except.error e
  | Except.ok rs =>
    Except.ok (finalizeRepos (if opts.source then esr rs else rs))

/-! ### Auxiliary observations -/

/-- Whether an event records a package-sync stage execution. -/
def isPkgSynced : Event → Bool
  | Event.pkgSynced _ => true
  | _ => false

/-- The number of package-sync stage executions recorded in a trace. -/
def pkgSyncCount (tr : List Event) : Nat :=
  (tr.filter isPkgSynced).length


/-! ### Concrete fixtures used by the claim theorems and witnesses -/

/-- Default options: no filters, download path `./`, nothing optional. -/
def opts0 : Opts :=
  { arches := [], delete := false, downloadcomps := false,
    download_metadata := false, newest_only := false, download_path := "./",
    source := false, destdir := none, repoIds := [] }

/-- An enabled repository with the given id and no optional collaborator
behavior. -/
def mkRepo (i : String) : Repo :=
  { id := i, pkgdir := "/cache/" ++ i, comps := none, compsFails := false,
    metadataFails := false, metadataFiles := [], enabled := true,
    deltarpm := true, expired := false }

/-- The empty initial state. -/
def st0 : St := { fs := ⟨[]⟩, downloads := [], copies := [], deleted := [], trace := [] }

/-- C1 fixture: one repository `r` under working directory `/w`. -/
def c1repo : Repo := mkRepo "r"

/-- C1 fixture: a package whose location climbs into a sibling directory of
the target (`/w/rx`), which shares the string prefix `/w/r`. -/
def c1pkgSib : Pkg :=
  { repoId := "r", location := "../rx/evil.rpm", name := "evil", evr := 1,
    arch := "x86_64", isLocal := false, content := "E" }

/-- C1 fixture: the location from the spec example. -/
def c1pkgEsc : Pkg :=
  { repoId := "r", location := "../../etc/passwd", name := "evil", evr := 1,
    arch := "x86_64", isLocal := false, content := "E" }

/-- C1 fixture context (sack holds the fully escaping package, so that the
package-sync stage exercises the failing path). -/
def c1ctx : Ctx := { cwd := "/w", opts := opts0, repos := [c1repo], sack := [c1pkgEsc] }

/-- Options with `--delete`. -/
def optsDel : Opts := { opts0 with delete := true }

/-- C3 fixture: remote package of repository `r1`. -/
def c3p1 : Pkg :=
  { repoId := "r1", location := "p1.rpm", name := "p1", evr := 1,
    arch := "x86_64", isLocal := false, content := "A" }

/-- C3 fixture: remote package of repository `r2`. -/
def c3p2 : Pkg :=
  { repoId := "r2", location := "p2.rpm", name := "p2", evr := 1,
    arch := "x86_64", isLocal := false, content := "B" }

/-- C3 fixture: two enabled repositories, `--delete`, unchanged index. -/
def c3ctx : Ctx :=
  { cwd := "/w", opts := optsDel, repos := [mkRepo "r1", mkRepo "r2"],
    sack := [c3p1, c3p2] }

/-- C2 fixture: initial filesystem with one stale file under the target of
`r1` and the current package of `r2` under the target of `r2`. -/
def c2st : St :=
  { fs := ⟨[("/w/r1", Entry.dir), ("/w/r1/x.rpm", Entry.file "X"),
            ("/w/r2", Entry.dir), ("/w/r2/p2.rpm", Entry.file "B")]⟩,
    downloads := [], copies := [], deleted := [], trace := [] }

/-- C2 witness fixture: a single enabled repository. -/
def c2wctx : Ctx :=
  { cwd := "/w", opts := optsDel, repos := [mkRepo "r1"], sack := [c3p1] }

/-- C2 witness fixture: a `.rpm` file far away from every target directory. -/
def c2wst : St :=
  { fs := ⟨[("/w/r1", Entry.dir), ("/w/r1/old.rpm", Entry.file "O"),
            ("/elsewhere/x.rpm", Entry.file "X")]⟩,
    downloads := [], copies := [], deleted := [], trace := [] }

/-- C4 fixture: a repository publishing a comps descriptor whose
decompression raises. -/
def c4repo : Repo := { mkRepo "r" with comps := some "GROUPS", compsFails := true }

/-- C4 fixture context with `--downloadcomps`. -/
def c4ctx : Ctx :=
  { cwd := "/w", opts := { opts0 with downloadcomps := true },
    repos := [c4repo], sack := [c3p1] }

/-- C4 witness fixture: metadata stage requested and failing. -/
def c4wrepo : Repo := { mkRepo "m" with metadataFails := true }

/-- C4 witness fixture context with `--download-metadata`. -/
def c4wctx : Ctx :=
  { cwd := "/w", opts := { opts0 with download_metadata := true },
    repos := [c4wrepo], sack := [] }

/-- C5 fixture: `foo-1.0.x86_64`. -/
def c5foo1 : Pkg :=
  { repoId := "r", location := "Packages/foo-1.0.x86_64.rpm", name := "foo",
    evr := 1, arch := "x86_64", isLocal := false, content := "F1" }

/-- C5 fixture: `foo-2.0.noarch`. -/
def c5foo2 : Pkg :=
  { repoId := "r", location := "Packages/foo-2.0.noarch.rpm", name := "foo",
    evr := 2, arch := "noarch", isLocal := false, content := "F2" }

/-- C5 fixture: `--newest-only` with `--arch x86_64`. -/
def c5ctx : Ctx :=
  { cwd := "/w", opts := { opts0 with newest_only := true, arches := ["x86_64"] },
    repos := [mkRepo "r"], sack := [c5foo1, c5foo2] }

/-- C5 fixture: additionally `--source` (precedence over the allow-list). -/
def c5ctxSrc : Ctx := { c5ctx with opts := { c5ctx.opts with source := true } }

/-- C6 fixture: the candidate package `a-1.0.rpm`. -/
def c6pa : Pkg :=
  { repoId := "r", location := "a-1.0.rpm", name := "a", evr := 1,
    arch := "x86_64", isLocal := false, content := "A" }

/-- C6 fixture: one enabled repository with `--delete`. -/
def c6ctx : Ctx := { cwd := "/w", opts := optsDel, repos := [mkRepo "r"], sack := [c6pa] }

/-- C6 fixture: target directory holding `a-1.0.rpm` and `b-1.0.rpm`. -/
def c6st : St :=
  { fs := ⟨[("/w/r", Entry.dir), ("/w/r/a-1.0.rpm", Entry.file "A"),
            ("/w/r/b-1.0.rpm", Entry.file "B")]⟩,
    downloads := [], copies := [], deleted := [], trace := [] }

/-- C7 witness fixture: a non-`.rpm` file inside the target directory, with
an empty candidate set. -/
def c7st : St :=
  { fs := ⟨[("/w/r", Entry.dir), ("/w/r/notes.txt", Entry.file "N"),
            ("/w/r/b.rpm", Entry.file "B")]⟩,
    downloads := [], copies := [], deleted := [], trace := [] }

/-- C8 witness fixture: a locally available package with a subdirectory in
its location. -/
def c8pkg : Pkg :=
  { repoId := "r", location := "sub/x.rpm", name := "x", evr := 1,
    arch := "x86_64", isLocal := true, content := "XC" }

/-- C8 witness fixture: the package bytes present in the repository cache. -/
def c8st : St :=
  { fs := ⟨[("/cache/r/sub/x.rpm", Entry.file "XC")]⟩,
    downloads := [], copies := [], deleted := [], trace := [] }

/-- C8 witness fixture context. -/
def c8ctx : Ctx := { cwd := "/w", opts := opts0, repos := [c1repo], sack := [c8pkg] }

/-- C9 witness fixture: an enabled repository with delta-RPM on and an
unexpired cache before `configure`. -/
def c9repo : Repo := mkRepo "z"

/-- C10 witness fixture: a directory named like a package archive inside
the target directory. -/
def c10st : St :=
  { fs := ⟨[("/w/r", Entry.dir), ("/w/r/sub.rpm", Entry.dir),
            ("/w/r/b.rpm", Entry.file "B")]⟩,
    downloads := [], copies := [], deleted := [], trace := [] }

/-! ### Helper lemmas -/

/-- Folding a step that preserves `P` (for elements of the list) preserves
`P`. -/
theorem foldl_pres_mem {α β : Type} {P : α → Prop} {f : α → β → α} :
    ∀ (l : List β), (∀ s x, x ∈ l → P s → P (f s x)) → ∀ s, P s → P (l.foldl f s) := by
  intro l
  induction l with
  | nil => intro _ s h0; exact h0
  | cons a t ih =>
    intro h s h0
    exact ih (fun s x hx => h s x (List.mem_cons_of_mem a hx)) (f s a)
      (h s a (List.mem_cons_self a t) h0)

/-- Removing the entries of key `p` does not change the association lookup
at a different key `q`. -/
theorem lookup_filter_ne (l : List (String × Entry)) (p q : String) (h : q ≠ p) :
    List.lookup q (l.filter (fun e => e.1 != p)) = List.lookup q l := by
  induction l with
  | nil => rfl
  | cons a t ih =>
    obtain ⟨k, v⟩ := a
    by_cases hk : k = p
    · subst hk
      have hq : (q == k) = false := by simp [h]
      simp [List.filter_cons, List.lookup, hq, ih]
    · by_cases hqk : q = k
      · subst hqk
        simp [List.filter_cons, List.lookup, bne, hk]
      · have hq : (q == k) = false := by simp [hqk]
        simpa [List.filter_cons, List.lookup, bne, hk, hq] using ih

/-- Looking up the freshly written file. -/
theorem lookup_write_self (fs : FS) (p c : String) :
    (fs.write p c).lookup p = some (Entry.file c) := by
  simp [FS.write, FS.lookup, List.lookup]

/-- Writing one file does not change the lookup at a different path. -/
theorem lookup_write_ne (fs : FS) (p c q : String) (h : q ≠ p) :
    (fs.write p c).lookup q = fs.lookup q := by
  have hq : (q == p) = false := by simp [h]
  simp [FS.write, FS.lookup, List.lookup, hq, lookup_filter_ne _ _ _ h]

/-- `ensure_dir` keeps every present entry. -/
theorem lookup_ensureDir_of_some (fs : FS) (x q : String) (e : Entry)
    (h : fs.lookup q = some e) : (fs.ensureDir x).lookup q = some e := by
  unfold FS.ensureDir
  by_cases hx : (fs.lookup x).isSome = true
  · rw [if_pos hx]; exact h
  · rw [if_neg hx]
    have hqx : (q == x) = false := by
      apply beq_eq_false_iff_ne.mpr
      intro heq; subst heq; rw [h] at hx; simp at hx
    simpa [FS.lookup, List.lookup, hqx] using h

/-- After `ensure_dir` something is at the path. -/
theorem lookup_ensureDir_self_isSome (fs : FS) (x : String) :
    ((fs.ensureDir x).lookup x).isSome = true := by
  unfold FS.ensureDir
  by_cases hx : (fs.lookup x).isSome = true
  · rw [if_pos hx]; exact hx
  · rw [if_neg hx]
    simp [FS.lookup, List.lookup]

/-- A list is a Boolean prefix of itself extended on the right. -/
theorem isPrefixOf_append_self (l m : List Char) : l.isPrefixOf (l ++ m) = true := by
  induction l with
  | nil => simp [List.isPrefixOf]
  | cons a t ih => simp [List.isPrefixOf, ih]

/-- Extending the larger list on the right keeps a Boolean prefix. -/
theorem isPrefixOf_append_right (l : List Char) :
    ∀ m k : List Char, l.isPrefixOf m = true → l.isPrefixOf (m ++ k) = true := by
  induction l with
  | nil => intro m k _; simp [List.isPrefixOf]
  | cons a t ih =>
    intro m k h
    cases m with
    | nil => simp [List.isPrefixOf] at h
    | cons b bs =>
      simp only [List.isPrefixOf, Bool.and_eq_true] at h ⊢
      exact ⟨h.1, ih bs k h.2⟩

/-- Extending the larger list on the left keeps a Boolean suffix. -/
theorem isSuffixOf_append_left (s m pre : List Char)
    (h : s.isSuffixOf m = true) : s.isSuffixOf (pre ++ m) = true := by
  simp only [List.isSuffixOf] at h ⊢
  rw [List.reverse_append]
  exact isPrefixOf_append_right _ _ _ h

/-- A suffix of the second `join` argument is a suffix of the joined path. -/
theorem pyEndsWith_pyJoin (t name s : String) (h : pyEndsWith name s = true) :
    pyEndsWith (pyJoin t name) s = true := by
  unfold pyEndsWith at h ⊢
  unfold pyJoin
  split
  · exact h
  · split
    · rw [String.data_append]
      exact isSuffixOf_append_left _ _ _ h
    · rw [String.data_append]
      exact isSuffixOf_append_left _ _ _ h

/-- In the ordinary case `join` inserts a separator. -/
theorem pyJoin_rel (t name : String) (ht : t ≠ "")
    (h1 : pyEndsWith t "/" = false) (h2 : pyStartsWith name "/" = false) :
    pyJoin t name = t ++ "/" ++ name := by
  have hA : ¬ (pyStartsWith name "/" = true) := by
    rw [h2]; exact Bool.false_ne_true
  have hB : ¬ (t = "" ∨ pyEndsWith t "/" = true) := by
    intro hor
    rcases hor with h | h
    · exact ht h
    · rw [h1] at h; exact Bool.false_ne_true h
  unfold pyJoin
  rw [if_neg hA, if_neg hB]

/-- The path of an immediate child starts with the directory and a
separator. -/
theorem pyStartsWith_append (t name : String) :
    pyStartsWith (t ++ "/" ++ name) (t ++ "/") = true := by
  unfold pyStartsWith
  rw [String.data_append]
  exact isPrefixOf_append_self _ _

/-- A child name extracted by `childName` is nonempty and has no
separator. -/
theorem childName_spec (d p name : String) (h : childName d p = some name) :
    name.data ≠ [] ∧ name.data.all (fun c => c != '/') = true := by
  simp only [childName] at h
  split at h
  · split at h
    · rename_i hc
      injection h with h2
      subst h2
      simpa using hc
    · cases h
  · cases h

/-- A name listed by `listdir` is nonempty and has no separator. -/
theorem listdir_name_facts (fs : FS) (d name : String)
    (h : name ∈ fs.listdir d) :
    name.data ≠ [] ∧ name.data.all (fun c => c != '/') = true := by
  unfold FS.listdir at h
  obtain ⟨e, _, he⟩ := List.mem_filterMap.mp h
  exact childName_spec _ _ _ he

/-- A separator-free name does not start with a separator. -/
theorem pyStartsWith_slash_false (name : String)
    (h : name.data.all (fun c => c != '/') = true) :
    pyStartsWith name "/" = false := by
  unfold pyStartsWith
  show List.isPrefixOf ['/'] name.data = false
  cases hd : name.data with
  | nil => rfl
  | cons c cs =>
    rw [hd] at h
    simp only [List.all_cons, Bool.and_eq_true, bne_iff_ne] at h
    simp [List.isPrefixOf]
    exact fun heq => h.1 heq.symm

/-- The `path or dot` step never returns the empty string. -/
theorem orDot_ne_empty (l : List Char) : orDot l ≠ "" := by
  unfold orDot
  split
  · decide
  · rename_i h2
    intro h
    exact h2 (by simpa using congrArg String.data h)

/-- `normpath` never returns the empty string. -/
theorem pyNormpath_ne_empty (p : String) : pyNormpath p ≠ "" := by
  by_cases hp : p = ""
  · subst hp; decide
  · simp only [pyNormpath, if_neg hp]
    exact orDot_ne_empty _

/-- One deletion step never touches a path other than the one it joins. -/
theorem deleteStep_lookup_ne (dmap : List (String × String))
    (repoId target : String) (st : St) (filename q : String)
    (h : q ≠ pyJoin target filename) :
    (deleteStep dmap repoId target st filename).fs.lookup q = st.fs.lookup q := by
  simp only [deleteStep]
  split
  · split
    · rfl
    · cases hu : st.fs.unlink (pyJoin target filename) with
      | none => simp
      | some fs2 =>
        simp only []
        unfold FS.unlink at hu
        split at hu
        · injection hu with hu2
          subst hu2
          simp only [FS.lookup]
          exact lookup_filter_ne _ _ _ h
        · cases hu
  · rfl

/-- One deletion step keeps every path that does not end in `.rpm`. -/
theorem deleteStep_nonrpm (dmap : List (String × String))
    (repoId target : String) (st : St) (filename q : String)
    (h : pyEndsWith q ".rpm" = false) :
    (deleteStep dmap repoId target st filename).fs.lookup q = st.fs.lookup q := by
  by_cases hrpm : pyEndsWith filename ".rpm" = true
  · have hpath : pyEndsWith (pyJoin target filename) ".rpm" = true :=
      pyEndsWith_pyJoin _ _ _ hrpm
    have hne : q ≠ pyJoin target filename := by
      intro he; rw [he, hpath] at h; cases h
    exact deleteStep_lookup_ne _ _ _ _ _ _ hne
  · simp only [deleteStep]
    rw [if_neg (fun hand => hrpm hand.1)]

/-- One deletion step keeps every directory entry. -/
theorem deleteStep_dir (dmap : List (String × String))
    (repoId target : String) (st : St) (filename q : String)
    (h : st.fs.lookup q = some Entry.dir) :
    (deleteStep dmap repoId target st filename).fs.lookup q = some Entry.dir := by
  by_cases hq : q = pyJoin target filename
  · have hf : st.fs.isfile q = false := by
      simp [FS.isfile, h]
    simp only [deleteStep]
    rw [if_neg]
    · exact h
    · rw [← hq]
      intro hand
      rw [hf] at hand
      exact Bool.false_ne_true hand.2
  · rw [deleteStep_lookup_ne _ _ _ _ _ _ hq]
    exact h

/-- One deletion step keeps every path that is not directly inside the
scanned target directory. -/
theorem deleteStep_outside (dmap : List (String × String))
    (repoId target : String) (st : St) (filename q : String)
    (ht : target ≠ "") (h1 : pyEndsWith target "/" = false)
    (hname : filename.data ≠ [] ∧ filename.data.all (fun c => c != '/') = true)
    (hq : pyStartsWith q (target ++ "/") = false) :
    (deleteStep dmap repoId target st filename).fs.lookup q = st.fs.lookup q := by
  have h2 : pyStartsWith filename "/" = false :=
    pyStartsWith_slash_false _ hname.2
  have hst : pyStartsWith (pyJoin target filename) (target ++ "/") = true := by
    rw [pyJoin_rel _ _ ht h1 h2]
    exact pyStartsWith_append _ _
  have hne : q ≠ pyJoin target filename := by
    intro he; rw [he, hst] at hq; cases hq
  exact deleteStep_lookup_ne _ _ _ _ _ _ hne

/-- Appending traces adds the package-sync counts. -/
theorem pkgSyncCount_append (a b : List Event) :
    pkgSyncCount (a ++ b) = pkgSyncCount a + pkgSyncCount b := by
  simp [pkgSyncCount, List.filter_append]

/-! ### Claim theorems -/

/-- C7: a file whose name does not end in `.rpm` is never deleted by the
deletion pass, regardless of `--delete` and of the candidate set: the pass
leaves the lookup at every path not ending in `.rpm` unchanged, for every
context, candidate set and starting filesystem. -/
theorem C7_non_rpm_files_never_deleted (ctx : Ctx) (packages : List Pkg)
    (st : St) (q : String) (h : pyEndsWith q ".rpm" = false) :
    (delete_old_local_packages ctx packages st).fs.lookup q = st.fs.lookup q := by
  simp only [delete_old_local_packages]
  refine foldl_pres_mem (P := fun (s : St) => s.fs.lookup q = st.fs.lookup q) _ ?_ _ rfl
  intro s repo _ hP
  simp only [deleteRepoPass]
  split
  · refine foldl_pres_mem (P := fun (s2 : St) => s2.fs.lookup q = st.fs.lookup q) _ ?_ _ hP
    intro s2 filename _ hP2
    rw [deleteStep_nonrpm _ _ _ _ _ _ h]
    exact hP2
  · exact hP

/-- C7 witness: a `notes.txt` inside the target directory survives the
deletion pass with an empty candidate set. -/
theorem C7_non_rpm_files_never_deleted_witness :
    pyEndsWith "/w/r/notes.txt" ".rpm" = false ∧
    (delete_old_local_packages c6ctx [] c7st).fs.lookup "/w/r/notes.txt" =
      c7st.fs.lookup "/w/r/notes.txt" :=
  ⟨by decide,
   C7_non_rpm_files_never_deleted c6ctx [] c7st "/w/r/notes.txt" (by decide)⟩

/-- C10: the deletion pass unlinks a directory entry only if it is a
regular file: every directory entry — in particular one named `*.rpm`
inside a target directory — is still a directory entry after the pass. -/
theorem C10_directories_never_unlinked (ctx : Ctx) (packages : List Pkg)
    (st : St) (q : String) (h : st.fs.lookup q = some Entry.dir) :
    (delete_old_local_packages ctx packages st).fs.lookup q = some Entry.dir := by
  simp only [delete_old_local_packages]
  refine foldl_pres_mem (P := fun (s : St) => s.fs.lookup q = some Entry.dir) _ ?_ _ h
  intro s repo _ hP
  simp only [deleteRepoPass]
  split
  · refine foldl_pres_mem (P := fun (s2 : St) => s2.fs.lookup q = some Entry.dir) _ ?_ _ hP
    intro s2 filename _ hP2
    exact deleteStep_dir _ _ _ _ _ _ hP2
  · exact hP

/-- C10 witness: a directory named `sub.rpm` inside the target directory
survives the deletion pass with an empty candidate set. -/
theorem C10_directories_never_unlinked_witness :
    c10st.fs.lookup "/w/r/sub.rpm" = some Entry.dir ∧
    (delete_old_local_packages c6ctx [] c10st).fs.lookup "/w/r/sub.rpm" =
      some Entry.dir :=
  ⟨by decide,
   C10_directories_never_unlinked c6ctx [] c10st "/w/r/sub.rpm" (by decide)⟩

/-- C2 counterexample: the deletion pass invoked while syncing repository
r2 (its keepSet is the candidate set of r2 only) deletes the file
`/w/r1/x.rpm` that lies under the target directory of the other enabled
repository r1, refuting the claim that files under the target directory of
every other repository are left unchanged by that pass. -/
theorem C2_cex_other_repo_file_deleted :
    c2st.fs.lookup "/w/r1/x.rpm" = some (Entry.file "X") ∧
    (delete_old_local_packages c3ctx [c3p2] c2st).fs.lookup "/w/r1/x.rpm" = none := by
  decide

/-- C2 (amended): the deletion pass inspects the immediate children of the
target directory of every enabled repository (not only of the one being
synced); a path that is not directly inside the target directory of any
enabled repository is left unchanged by the pass (stated for targets not
ending in a separator, which `normpath` guarantees for real targets). -/
theorem C2_deletion_pass_frame (ctx : Ctx) (packages : List Pkg) (st : St)
    (q : String)
    (hT : ∀ r ∈ ctx.repos, r.enabled = true →
      pyEndsWith (repo_target ctx r.id) "/" = false)
    (hq : ∀ r ∈ ctx.repos, r.enabled = true →
      pyStartsWith q (repo_target ctx r.id ++ "/") = false) :
    (delete_old_local_packages ctx packages st).fs.lookup q = st.fs.lookup q := by
  simp only [delete_old_local_packages]
  refine foldl_pres_mem (P := fun (s : St) => s.fs.lookup q = st.fs.lookup q) _ ?_ _ rfl
  intro s repo hrepo hP
  obtain ⟨hmem, hen⟩ := List.mem_filter.mp hrepo
  simp only [deleteRepoPass]
  split
  · refine foldl_pres_mem (P := fun (s2 : St) => s2.fs.lookup q = st.fs.lookup q) _ ?_ _ hP
    intro s2 filename hfn hP2
    have ht : repo_target ctx repo.id ≠ "" := pyNormpath_ne_empty _
    rw [deleteStep_outside _ _ _ _ _ _ ht (hT repo hmem hen)
      (listdir_name_facts _ _ _ hfn) (hq repo hmem hen)]
    exact hP2
  · exact hP

/-- C2 witness: a `.rpm` file outside every enabled target directory is
untouched by the deletion pass. -/
theorem C2_deletion_pass_frame_witness :
    (∀ r ∈ c2wctx.repos, r.enabled = true →
      pyEndsWith (repo_target c2wctx r.id) "/" = false) ∧
    (∀ r ∈ c2wctx.repos, r.enabled = true →
      pyStartsWith "/elsewhere/x.rpm" (repo_target c2wctx r.id ++ "/") = false) ∧
    (delete_old_local_packages c2wctx [c3p1] c2wst).fs.lookup "/elsewhere/x.rpm" =
      c2wst.fs.lookup "/elsewhere/x.rpm" :=
  ⟨by decide, by decide,
   C2_deletion_pass_frame c2wctx [c3p1] c2wst "/elsewhere/x.rpm" (by decide) (by decide)⟩

/-- C6: with one enabled repository whose target holds the regular files
`a-1.0.rpm` and `b-1.0.rpm`, the deletion pass with a candidate set
containing only `a-1.0.rpm` deletes exactly `b-1.0.rpm`. -/
theorem C6_deletes_exactly_the_stale_file :
    (delete_old_local_packages c6ctx [c6pa] c6st).fs.entries =
      [("/w/r", Entry.dir), ("/w/r/a-1.0.rpm", Entry.file "A")] ∧
    (delete_old_local_packages c6ctx [c6pa] c6st).deleted = ["/w/r/b-1.0.rpm"] := by
  decide

/-- C1 (evaluation at the failing input): for the sibling-escape location
`../rx/evil.rpm` the normalized destination `/w/rx/evil.rpm` does not have
the target `/w/r` as a strict path prefix, yet `pkg_download_path` accepts
it, because the Python check is a plain string `startswith`; the fully
escaping location `../../etc/passwd` does raise, and the raise makes the
package-sync stage fail without writing any file. -/
theorem C1_escape_check_is_string_prefix_only :
    pkg_download_path c1ctx c1pkgSib = Except.ok "/w/rx/evil.rpm" ∧
    strictPathPrefix (repo_target c1ctx "r") "/w/rx/evil.rpm" = false ∧
    pkg_download_path c1ctx c1pkgEsc =
      Except.error "Download target /etc/passwd is outside of download path /w/r." ∧
    (download_packages c1ctx c1repo st0).1.fs = st0.fs ∧
    (download_packages c1ctx c1repo st0).2.isSome = true :=
  ⟨rfl, rfl, rfl, rfl, rfl⟩

/-- C3 (evaluation at the failing input): with two enabled repositories and
`--delete`, running the full sync twice against the unchanged index gives
two successful runs whose final file sets agree, but the second run
performs two fresh network downloads (re-fetching what the deletion passes
of the first run removed), refuting that the second run downloads or
copies no new files. -/
theorem C3_second_run_downloads_again :
    (run c3ctx st0).2 = none ∧
    (run c3ctx { (run c3ctx st0).1 with downloads := [] }).2 = none ∧
    (run c3ctx { (run c3ctx st0).1 with downloads := [] }).1.fs =
      (run c3ctx st0).1.fs ∧
    (run c3ctx { (run c3ctx st0).1 with downloads := [] }).1.downloads =
      ["/w/r1/p1.rpm", "/w/r2/p2.rpm"] := by
  decide

/-- C5 counterexample: on the index `{foo-1.0.x86_64, foo-2.0.noarch}` with
`newestOnly = true` and `arches = [x86_64]`, `get_pkglist` resolves to
exactly `{foo-1.0.x86_64}` — the one result the claim says can never
occur. -/
theorem C5_cex_result_is_old_x86_64_foo :
    get_pkglist c5ctx (mkRepo "r") = [c5foo1] ∧
    c5foo1.name = "foo" ∧ c5foo1.evr = 1 ∧ c5foo1.arch = "x86_64" := by
  decide

/-- C5 (amended): the newest-only reduction runs before the
source/architecture restriction and keeps the newest package per name and
architecture (so here both `foo` packages, their architectures being
distinct); the architecture filter then removes `foo-2.0.noarch`, giving
`{foo-1.0.x86_64}`; the source restriction takes precedence over the
architecture allow-list (with `--source` the same query yields the empty
set, there being no `src` packages). -/
theorem C5_filter_order_and_result :
    latestPerNameArch [c5foo1, c5foo2] = [c5foo1, c5foo2] ∧
    get_pkglist c5ctx (mkRepo "r") = [c5foo1] ∧
    get_pkglist c5ctxSrc (mkRepo "r") = [] := by
  decide

/-- C4 counterexample: a raise inside the optional comps stage aborts the
mandatory package-sync stage of that repository — the error propagates and
no package-sync event is recorded. -/
theorem C4_cex_comps_failure_aborts_package_sync :
    (runRepo c4ctx c4repo st0).2 = some "decompress failed for r" ∧
    pkgSyncCount (runRepo c4ctx c4repo st0).1.trace = 0 := by
  decide

/-- C4 (amended): a failure raised inside the optional metadata-replication
stage or the optional comps-replication stage is not caught by `run`: it
propagates, and the mandatory package-sync stage of that repository does
not execute (no package-sync event is added to the trace). -/
theorem C4_optional_stage_failure_aborts (ctx : Ctx) (repo : Repo) (st : St)
    (h : (ctx.opts.download_metadata = true ∧ repo.metadataFails = true) ∨
      (ctx.opts.downloadcomps = true ∧ repo.compsFails = true ∧
       repo.comps.isSome = true ∧
       (ctx.opts.download_metadata = true → repo.metadataFails = false))) :
    (runRepo ctx repo st).2.isSome = true ∧
    pkgSyncCount (runRepo ctx repo st).1.trace = pkgSyncCount st.trace := by
  rcases h with ⟨hdm, hmf⟩ | ⟨hdc, hcf, hcs, himp⟩
  · simp [runRepo, andThen, download_metadata, hdm, hmf]
  · obtain ⟨c, hc⟩ := Option.isSome_iff_exists.mp hcs
    cases hdm : ctx.opts.download_metadata with
    | false => simp [runRepo, andThen, hdm, hdc, getcomps, hc, hcf]
    | true =>
      have hmf2 : repo.metadataFails = false := himp hdm
      simp [runRepo, andThen, hdm, hdc, download_metadata, hmf2, getcomps, hc,
        hcf, pkgSyncCount_append, pkgSyncCount, isPkgSynced, List.filter]

/-- C4 witness: a failing metadata stage at a concrete input satisfies the
hypothesis, and the package-sync stage is aborted there. -/
theorem C4_optional_stage_failure_aborts_witness :
    ((c4wctx.opts.download_metadata = true ∧ c4wrepo.metadataFails = true) ∨
      (c4wctx.opts.downloadcomps = true ∧ c4wrepo.compsFails = true ∧
       c4wrepo.comps.isSome = true ∧
       (c4wctx.opts.download_metadata = true → c4wrepo.metadataFails = false))) ∧
    ((runRepo c4wctx c4wrepo st0).2.isSome = true ∧
     pkgSyncCount (runRepo c4wctx c4wrepo st0).1.trace = pkgSyncCount st0.trace) :=
  ⟨by decide, C4_optional_stage_failure_aborts c4wctx c4wrepo st0 (by decide)⟩

/-- After a write something is at a path that was occupied before or is the
written path itself. -/
theorem lookup_write_isSome (fs : FS) (p c x : String)
    (h : x = p ∨ (fs.lookup x).isSome = true) :
    ((fs.write p c).lookup x).isSome = true := by
  rcases h with h | h
  · subst h
    rw [lookup_write_self]
    rfl
  · by_cases hxp : x = p
    · subst hxp
      rw [lookup_write_self]
      rfl
    · rw [lookup_write_ne _ _ _ _ hxp]
      exact h

/-- C8: a package classified as locally available is copied, not fetched:
given that `pkg_download_path` accepts the package and that the source file
`join(pkg.repo.pkgdir, location.lstrip(sep))` holds bytes `c`, the copy
step succeeds, the parent directory of the destination exists afterwards
(created first), the destination holds exactly the bytes `c` of the source
file, no network download is recorded, and the copy is recorded. -/
theorem C8_local_copy_not_fetched (ctx : Ctx) (repo : Repo) (st : St)
    (p : Pkg) (d c : String)
    (hd : pkg_download_path ctx p = Except.ok d)
    (hsrc : st.fs.lookup (pyJoin repo.pkgdir (pyLstripSlash p.location)) =
      some (Entry.file c)) :
    (copyLocal ctx repo st p).2 = none ∧
    (copyLocal ctx repo st p).1.fs.lookup
      (pyJoin (pyDirname d)
        (pyBasename (pyJoin repo.pkgdir (pyLstripSlash p.location)))) =
      some (Entry.file c) ∧
    ((copyLocal ctx repo st p).1.fs.lookup (pyDirname d)).isSome = true ∧
    (copyLocal ctx repo st p).1.downloads = st.downloads ∧
    (copyLocal ctx repo st p).1.copies = st.copies ++
      [pyJoin (pyDirname d)
        (pyBasename (pyJoin repo.pkgdir (pyLstripSlash p.location)))] := by
  have hsrc2 : (st.fs.ensureDir (pyDirname d)).lookup
      (pyJoin repo.pkgdir (pyLstripSlash p.location)) = some (Entry.file c) :=
    lookup_ensureDir_of_some _ _ _ _ hsrc
  have hcl : copyLocal ctx repo st p =
      ({ st with
         fs := (st.fs.ensureDir (pyDirname d)).write
           (pyJoin (pyDirname d)
             (pyBasename (pyJoin repo.pkgdir (pyLstripSlash p.location)))) c,
         copies := st.copies ++
           [pyJoin (pyDirname d)
             (pyBasename (pyJoin repo.pkgdir (pyLstripSlash p.location)))] },
       none) := by
    simp only [copyLocal, hd, hsrc2]
  rw [hcl]
  refine ⟨rfl, lookup_write_self _ _ _, ?_, rfl, rfl⟩
  exact lookup_write_isSome _ _ _ _ (Or.inr (lookup_ensureDir_self_isSome _ _))

/-- C8 witness: the concrete locally available package `sub/x.rpm` with
cache bytes `XC` is copied to `/w/r/sub/x.rpm`. -/
theorem C8_local_copy_not_fetched_witness :
    pkg_download_path c8ctx c8pkg = Except.ok "/w/r/sub/x.rpm" ∧
    c8st.fs.lookup (pyJoin c1repo.pkgdir (pyLstripSlash c8pkg.location)) =
      some (Entry.file "XC") ∧
    ((copyLocal c8ctx c1repo c8st c8pkg).2 = none ∧
     (copyLocal c8ctx c1repo c8st c8pkg).1.fs.lookup
       (pyJoin (pyDirname "/w/r/sub/x.rpm")
         (pyBasename (pyJoin c1repo.pkgdir (pyLstripSlash c8pkg.location)))) =
       some (Entry.file "XC") ∧
     ((copyLocal c8ctx c1repo c8st c8pkg).1.fs.lookup
       (pyDirname "/w/r/sub/x.rpm")).isSome = true ∧
     (copyLocal c8ctx c1repo c8st c8pkg).1.downloads = c8st.downloads ∧
     (copyLocal c8ctx c1repo c8st c8pkg).1.copies = c8st.copies ++
       [pyJoin (pyDirname "/w/r/sub/x.rpm")
         (pyBasename (pyJoin c1repo.pkgdir (pyLstripSlash c8pkg.location)))]) :=
  ⟨rfl, rfl,
   C8_local_copy_not_fetched c8ctx c1repo c8st c8pkg "/w/r/sub/x.rpm" "XC" rfl rfl⟩

/-- C9: whenever `configure` completes successfully, every enabled
repository of the resulting configuration has `deltarpm = false` and an
expired metadata cache — for every combination of CLI flags and every
behavior of the external `enable_source_repos`. -/
theorem C9_configure_expires_and_disables_deltarpm (opts : Opts)
    (esr : List Repo → List Repo) (repos rs : List Repo) (r : Repo)
    (h : configure opts esr repos = Except.ok rs) (hr : r ∈ rs)
    (he : r.enabled = true) : r.deltarpm = false ∧ r.expired = true := by
  unfold configure at h
  split at h
  · cases h
  · injection h with h2
    subst h2
    simp only [finalizeRepos] at hr
    obtain ⟨r0, hr0, hfr⟩ := List.mem_map.mp hr
    by_cases hen : r0.enabled = true
    · rw [if_pos hen] at hfr
      subst hfr
      exact ⟨rfl, rfl⟩
    · rw [if_neg hen] at hfr
      subst hfr
      exact absurd he hen

/-- C9 witness: `configure` on one enabled repository with no flags yields
the repository expired and with delta-RPM disabled. -/
theorem C9_configure_expires_and_disables_deltarpm_witness :
    configure opts0 (fun rs => rs) [c9repo] =
      Except.ok [{ c9repo with expired := true, deltarpm := false }] ∧
    ({ c9repo with expired := true, deltarpm := false } : Repo).enabled = true ∧
    (({ c9repo with expired := true, deltarpm := false } : Repo).deltarpm = false ∧
     ({ c9repo with expired := true, deltarpm := false } : Repo).expired = true) :=
  ⟨rfl, rfl,
   C9_configure_expires_and_disables_deltarpm opts0 (fun rs => rs) [c9repo]
     [{ c9repo with expired := true, deltarpm := false }]
     { c9repo with expired := true, deltarpm := false }
     rfl (by decide) rfl⟩

end RepoSync
